import Mathlib

/-!
Shallow embedding of `src/meditrust-lite/src/app/utils/contractUtils.js`.

The module wraps a browser wallet (`window.ethereum`), a persisted contract
address (`localStorage`), and an external smart contract behind async helper
functions.  Externally observable behaviour is modelled as follows:

* `Env` fixes the outcome of every external interaction in one call: whether
  the wallet extension is installed, the outcome of the
  `eth_requestAccounts` prompt, and the outcome of each contract method and
  of `tx.wait()`.
* `St` is the module-global mutable state: the process-wide
  `contractAddress` string and the single `localStorage` key
  `mediTrustContractAddress` (`Option String`; `none` = key absent,
  `getItem` returns `null`).
* Each operation returns `Except Err α × St × List Event`: the settled
  promise value, the state after the call, and the trace of observable
  events (wallet prompt, contract method invocation, `tx.wait`, and the
  `console.error` log from the catch block).
* JavaScript numeric values are modelled by `JsNum`: either a plain number
  or a wide integer (ethers BigNumber); `Number(x)` is `JsNum.toNumber`.
-/

namespace MediTrust

/-- A JavaScript numeric value as seen by this module: either a plain
number or a wide integer type (an ethers BigNumber) as returned by
contract calls. -/
inductive JsNum where
  | num (v : Int)
  | bigNum (v : Int)
deriving DecidableEq, Repr

/-- The `Number(x)` coercion applied at lines 167, 169, 191, 193, 216, 218
of the source: a wide integer becomes a plain number with the same value. -/
def JsNum.toNumber : JsNum → JsNum
  | .num v => .num v
  | .bigNum v => .num v

/-- Whether a `JsNum` is a plain JavaScript number. -/
def JsNum.isNum : JsNum → Bool
  | .num _ => true
  | .bigNum _ => false

/-- An error value as raised by this module or by its collaborators.
`jsError` is an `Error` thrown by the module itself, carrying its message;
`remote` is an opaque error produced by the wallet or the contract
(user rejection, network failure, revert), tagged so that identity
propagation is observable. -/
inductive Err where
  | jsError (message : String)
  | remote (code : Nat)
deriving DecidableEq, Repr

/-- The error thrown at line 13 when `window.ethereum` is absent. -/
def metaMaskNotInstalledError : Err :=
  .jsError "MetaMask is not installed. Please install MetaMask to use this application."

/-- The error thrown at line 32 when the global contract address is empty. -/
def contractAddressNotSetError : Err :=
  .jsError "Contract address not set. Please deploy the contract first."

/-- An observable external event of one call. -/
inductive Event where
  | log (message : String)
  | walletRequest
  | contractCall (method : String)
  | txWait
deriving DecidableEq, Repr

/-- A transaction handle returned by a contract write method. -/
abbrev Tx := Nat

/-- A signer obtained from `provider.getSigner()`. -/
abbrev Signer := Unit

/-- A contract handle: `new ethers.Contract(contractAddress, abi, signer)`
bound to the address it was created with (lines 35 to 39). -/
structure Contract where
  address : String
deriving DecidableEq, Repr

/-- A medical record as returned by the external contract: numeric fields
arrive as wide integers or plain numbers, the rest as strings. -/
structure ChainRecord where
  ipfsHash : String
  owner : String
  timestamp : JsNum
  recordType : String
  size : JsNum
deriving DecidableEq, Repr

/-- The module-global mutable state: the process-wide `contractAddress`
(line 5) and the persisted `localStorage` entry under the key
`mediTrustContractAddress`. -/
structure St where
  contractAddress : String
  storage : Option String
deriving DecidableEq, Repr

/-- The fixed outcomes of all external interactions during one call:
wallet presence, the account-request prompt, each contract method
(as a function of its arguments) and `tx.wait()`. -/
structure Env where
  ethereumInstalled : Bool
  requestAccounts : Except Err Unit
  addRecordTx : String → String → JsNum → Except Err Tx
  grantAccessTx : Nat → String → Except Err Tx
  revokeAccessTx : Nat → String → Except Err Tx
  txWaitResult : Tx → Except Err Unit
  hasAccessResult : Nat → String → Except Err Bool
  getRecordResult : Nat → Except Err ChainRecord
  getMyRecordsResult : Except Err (List ChainRecord)
  getAccessibleRecordsResult : Except Err (List ChainRecord)

/-- Lines 11 to 23: `getProviderAndSigner`.  Throws when `window.ethereum`
is absent; otherwise issues the `eth_requestAccounts` wallet prompt and, on
success, derives a provider and signer. -/
def getProviderAndSigner (env : Env) : Except Err Signer × List Event :=
  if env.ethereumInstalled then
    match env.requestAccounts with
    | .error e => (.error e, [.walletRequest])
    | .ok _ => (.ok (), [.walletRequest])
  else
    (.error metaMaskNotInstalledError, [])

/-- Lines 30 to 42: `getContract`.  Throws when the global address is
empty (`!contractAddress` is true exactly for the empty string), otherwise
builds a contract handle bound to the current address. -/
def getContract (st : St) (_signer : Signer) : Except Err Contract :=
  if st.contractAddress = "" then .error contractAddressNotSetError
  else .ok ⟨st.contractAddress⟩

/-- Line 5: `process.env.NEXT_PUBLIC_CONTRACT_ADDRESS || ''` — the value
of the global address at module load, given the optional environment
variable.  A missing or empty variable is falsy, so the default is the
empty string. -/
def initialContractAddress : Option String → String
  | none => ""
  | some s => if s = "" then "" else s

/-- Lines 48 to 55: `setContractAddress`.  Always overwrites the global
address; persists it to `localStorage` only when `window` is defined. -/
def setContractAddress (windowDefined : Bool) (st : St) (address : String) : St :=
  let st1 : St := { st with contractAddress := address }
  if windowDefined then { st1 with storage := some address } else st1

/-- Lines 60 to 67: `initContractAddress`.  When `window` is defined it
reads the persisted key; `if (savedAddress)` overwrites the global address
only when the value is truthy, i.e. present and non-empty. -/
def initContractAddress (windowDefined : Bool) (st : St) : St :=
  if windowDefined then
    match st.storage with
    | some savedAddress =>
        if savedAddress ≠ "" then { st with contractAddress := savedAddress } else st
    | none => st
  else st

/-- A fresh browser session: the module reloads, so `contractAddress` is
re-initialized from the environment variable (line 5) while `localStorage`
persists from the previous session. -/
def freshSession (envVar : Option String) (storage : Option String) : St :=
  { contractAddress := initialContractAddress envVar, storage := storage }

/-- The shared body of the read operations (`hasAccess`, `getRecord`,
`getMyRecords`, `getAccessibleRecords`), lines 139 to 224: connect, build
the contract handle, invoke one remote method, and in the catch block log
and re-throw the same error. -/
def runReadOp {α : Type} (env : Env) (st : St) (call : Except Err α)
    (method logMsg : String) : Except Err α × St × List Event :=
  match getProviderAndSigner env with
  | (.error e, evs) => (.error e, st, evs ++ [.log logMsg])
  | (.ok signer, evs) =>
    match getContract st signer with
    | .error e => (.error e, st, evs ++ [.log logMsg])
    | .ok _contract =>
      match call with
      | .error e => (.error e, st, evs ++ [.contractCall method, .log logMsg])
      | .ok v => (.ok v, st, evs ++ [.contractCall method])

/-- The shared body of the write operations (`addRecord`, `grantAccess`,
`revokeAccess`), lines 76 to 131: connect, build the contract handle,
submit the transaction, `await tx.wait()`, return the transaction; in the
catch block log and re-throw the same error. -/
def runWriteOp (env : Env) (st : St) (call : Except Err Tx)
    (method logMsg : String) : Except Err Tx × St × List Event :=
  match getProviderAndSigner env with
  | (.error e, evs) => (.error e, st, evs ++ [.log logMsg])
  | (.ok signer, evs) =>
    match getContract st signer with
    | .error e => (.error e, st, evs ++ [.log logMsg])
    | .ok _contract =>
      match call with
      | .error e => (.error e, st, evs ++ [.contractCall method, .log logMsg])
      | .ok tx =>
        match env.txWaitResult tx with
        | .error e => (.error e, st, evs ++ [.contractCall method, .txWait, .log logMsg])
        | .ok _ => (.ok tx, st, evs ++ [.contractCall method, .txWait])

/-- Lines 76 to 89: `addRecord`. -/
def addRecord (env : Env) (st : St) (ipfsHash recordType : String) (fileSize : JsNum) :
    Except Err Tx × St × List Event :=
  runWriteOp env st (env.addRecordTx ipfsHash recordType fileSize)
    "addRecord" "Error adding record to blockchain:"

/-- Lines 97 to 110: `grantAccess`. -/
def grantAccess (env : Env) (st : St) (recordId : Nat) (doctorAddress : String) :
    Except Err Tx × St × List Event :=
  runWriteOp env st (env.grantAccessTx recordId doctorAddress)
    "grantAccess" "Error granting access:"

/-- Lines 118 to 131: `revokeAccess`. -/
def revokeAccess (env : Env) (st : St) (recordId : Nat) (doctorAddress : String) :
    Except Err Tx × St × List Event :=
  runWriteOp env st (env.revokeAccessTx recordId doctorAddress)
    "revokeAccess" "Error revoking access:"

/-- Lines 139 to 150: `hasAccess`.  The contract boolean is bound to a
local constant and returned unchanged. -/
def hasAccess (env : Env) (st : St) (recordId : Nat) (address : String) :
    Except Err Bool × St × List Event :=
  runReadOp env st (env.hasAccessResult recordId address)
    "hasAccess" "Error checking access:"

/-- The result shape of `getRecord`, the object literal at lines 164
to 170: fields `ipfsHash`, `owner`, `timestamp`, `recordType`, `size`. -/
structure RecordOut where
  ipfsHash : String
  owner : String
  timestamp : JsNum
  recordType : String
  size : JsNum
deriving DecidableEq, Repr

/-- Lines 164 to 170: the response shaping of `getRecord` — `timestamp`
and `size` go through `Number(...)`, the other fields pass through. -/
def toRecordOut (record : ChainRecord) : RecordOut :=
  { ipfsHash := record.ipfsHash
    owner := record.owner
    timestamp := record.timestamp.toNumber
    recordType := record.recordType
    size := record.size.toNumber }

/-- Lines 157 to 175: `getRecord`. -/
def getRecord (env : Env) (st : St) (recordId : Nat) :
    Except Err RecordOut × St × List Event :=
  runReadOp env st ((env.getRecordResult recordId).map toRecordOut)
    "getRecord" "Error getting record:"

/-- The element shape returned by `getMyRecords`, the object literal at
lines 188 to 194: fields `id`, `ipfsHash`, `timestamp`, `recordType`,
`size` — no `owner`. -/
structure MyRecordOut where
  id : Nat
  ipfsHash : String
  timestamp : JsNum
  recordType : String
  size : JsNum
deriving DecidableEq, Repr

/-- The element shape returned by `getAccessibleRecords`, the object
literal at lines 212 to 219: fields `id`, `ipfsHash`, `owner`,
`timestamp`, `recordType`, `size`. -/
structure AccessibleRecordOut where
  id : Nat
  ipfsHash : String
  owner : String
  timestamp : JsNum
  recordType : String
  size : JsNum
deriving DecidableEq, Repr

/-- The callback of `records.map((record, index) => ...)` at lines 188
to 194. -/
def toMyRecord (index : Nat) (record : ChainRecord) : MyRecordOut :=
  { id := index
    ipfsHash := record.ipfsHash
    timestamp := record.timestamp.toNumber
    recordType := record.recordType
    size := record.size.toNumber }

/-- The callback of `records.map((record, index) => ...)` at lines 212
to 219. -/
def toAccessibleRecord (index : Nat) (record : ChainRecord) : AccessibleRecordOut :=
  { id := index
    ipfsHash := record.ipfsHash
    owner := record.owner
    timestamp := record.timestamp.toNumber
    recordType := record.recordType
    size := record.size.toNumber }

/-- `Array.prototype.map` with the element index, starting from `k`. -/
def mapWithIndexFrom {α β : Type} (f : Nat → α → β) : Nat → List α → List β
  | _, [] => []
  | k, r :: rs => f k r :: mapWithIndexFrom f (k + 1) rs

/-- `records.map((record, index) => ...)`: index starts at 0. -/
def mapWithIndex {α β : Type} (f : Nat → α → β) (records : List α) : List β :=
  mapWithIndexFrom f 0 records

/-- Lines 181 to 199: `getMyRecords`. -/
def getMyRecords (env : Env) (st : St) :
    Except Err (List MyRecordOut) × St × List Event :=
  runReadOp env st (env.getMyRecordsResult.map (mapWithIndex toMyRecord))
    "getMyRecords" "Error getting my records:"

/-- Lines 205 to 224: `getAccessibleRecords`. -/
def getAccessibleRecords (env : Env) (st : St) :
    Except Err (List AccessibleRecordOut) × St × List Event :=
  runReadOp env st (env.getAccessibleRecordsResult.map (mapWithIndex toAccessibleRecord))
    "getAccessibleRecords" "Error getting accessible records:"

/-- The field names, in source order, of the objects built by
`getMyRecords` (lines 188 to 194). -/
def myRecordFields : List String := ["id", "ipfsHash", "timestamp", "recordType", "size"]

/-- The field names, in source order, of the objects built by
`getAccessibleRecords` (lines 212 to 219). -/
def accessibleRecordFields : List String :=
  ["id", "ipfsHash", "owner", "timestamp", "recordType", "size"]

/-! ### Characterization lemmas for the shared operation bodies -/

theorem getProviderAndSigner_notInstalled (env : Env)
    (h : env.ethereumInstalled = false) :
    getProviderAndSigner env = (.error metaMaskNotInstalledError, []) := by
  simp [getProviderAndSigner, h]

theorem getProviderAndSigner_reqErr (env : Env) (e : Err)
    (hI : env.ethereumInstalled = true) (hR : env.requestAccounts = .error e) :
    getProviderAndSigner env = (.error e, [.walletRequest]) := by
  simp [getProviderAndSigner, hI, hR]

theorem getProviderAndSigner_ok (env : Env)
    (hI : env.ethereumInstalled = true) (hR : env.requestAccounts = .ok ()) :
    getProviderAndSigner env = (.ok (), [.walletRequest]) := by
  simp [getProviderAndSigner, hI, hR]

theorem getContract_noAddr (st : St) (s : Signer) (hA : st.contractAddress = "") :
    getContract st s = .error contractAddressNotSetError := by
  simp [getContract, hA]

theorem getContract_ok (st : St) (s : Signer) (hA : st.contractAddress ≠ "") :
    getContract st s = .ok ⟨st.contractAddress⟩ := by
  simp [getContract, hA]

section RunReadOp

variable {α : Type} (env : Env) (st : St) (call : Except Err α) (m msg : String)

theorem runReadOp_notInstalled (h : env.ethereumInstalled = false) :
    runReadOp env st call m msg = (.error metaMaskNotInstalledError, st, [.log msg]) := by
  simp [runReadOp, getProviderAndSigner_notInstalled env h]

theorem runReadOp_reqErr (e : Err) (hI : env.ethereumInstalled = true)
    (hR : env.requestAccounts = .error e) :
    runReadOp env st call m msg = (.error e, st, [.walletRequest, .log msg]) := by
  simp [runReadOp, getProviderAndSigner_reqErr env e hI hR]

theorem runReadOp_noAddr (hI : env.ethereumInstalled = true)
    (hR : env.requestAccounts = .ok ()) (hA : st.contractAddress = "") :
    runReadOp env st call m msg =
      (.error contractAddressNotSetError, st, [.walletRequest, .log msg]) := by
  simp [runReadOp, getProviderAndSigner_ok env hI hR, getContract_noAddr st () hA]

theorem runReadOp_callErr (e : Err) (hI : env.ethereumInstalled = true)
    (hR : env.requestAccounts = .ok ()) (hA : st.contractAddress ≠ "")
    (hc : call = .error e) :
    runReadOp env st call m msg =
      (.error e, st, [.walletRequest, .contractCall m, .log msg]) := by
  simp [runReadOp, getProviderAndSigner_ok env hI hR, getContract_ok st () hA, hc]

theorem runReadOp_ok (v : α) (hI : env.ethereumInstalled = true)
    (hR : env.requestAccounts = .ok ()) (hA : st.contractAddress ≠ "")
    (hc : call = .ok v) :
    runReadOp env st call m msg = (.ok v, st, [.walletRequest, .contractCall m]) := by
  simp [runReadOp, getProviderAndSigner_ok env hI hR, getContract_ok st () hA, hc]

/-- Every case of `runReadOp` leaves the state unchanged. -/
theorem runReadOp_state : (runReadOp env st call m msg).2.1 = st := by
  cases hI : env.ethereumInstalled
  · rw [runReadOp_notInstalled env st call m msg hI]
  · cases hR : env.requestAccounts with
    | error e => rw [runReadOp_reqErr env st call m msg e hI hR]
    | ok u =>
      cases u
      by_cases hA : st.contractAddress = ""
      · rw [runReadOp_noAddr env st call m msg hI hR hA]
      · cases hc : call with
        | error e => rw [runReadOp_callErr env st (.error e) m msg e hI hR hA rfl]
        | ok v => rw [runReadOp_ok env st (.ok v) m msg v hI hR hA rfl]

/-- The possible origins of an error raised by a read operation: the
missing wallet extension, the rejected account request, the unset contract
address, or the remote call itself — each propagated as-is. -/
def readFailureCause {α : Type} (env : Env) (st : St) (call : Except Err α)
    (e : Err) : Prop :=
  (env.ethereumInstalled = false ∧ e = metaMaskNotInstalledError) ∨
  (env.ethereumInstalled = true ∧ env.requestAccounts = .error e) ∨
  (env.ethereumInstalled = true ∧ env.requestAccounts = .ok () ∧
    st.contractAddress = "" ∧ e = contractAddressNotSetError) ∨
  (env.ethereumInstalled = true ∧ env.requestAccounts = .ok () ∧
    st.contractAddress ≠ "" ∧ call = .error e)

theorem runReadOp_error (e : Err)
    (h : (runReadOp env st call m msg).1 = .error e) :
    readFailureCause env st call e := by
  unfold readFailureCause
  cases hI : env.ethereumInstalled
  · rw [runReadOp_notInstalled env st call m msg hI] at h
    exact Or.inl ⟨rfl, ((Except.error.injEq _ _).mp h).symm⟩
  · cases hR : env.requestAccounts with
    | error e0 =>
      rw [runReadOp_reqErr env st call m msg e0 hI hR] at h
      have he : e0 = e := (Except.error.injEq _ _).mp h
      exact Or.inr (Or.inl ⟨rfl, by rw [he]⟩)
    | ok u =>
      cases u
      by_cases hA : st.contractAddress = ""
      · rw [runReadOp_noAddr env st call m msg hI hR hA] at h
        exact Or.inr (Or.inr (Or.inl ⟨rfl, rfl, hA, ((Except.error.injEq _ _).mp h).symm⟩))
      · cases hc : call with
        | error e0 =>
          rw [hc, runReadOp_callErr env st (.error e0) m msg e0 hI hR hA rfl] at h
          have he : e0 = e := (Except.error.injEq _ _).mp h
          exact Or.inr (Or.inr (Or.inr ⟨rfl, rfl, hA, by rw [he]⟩))
        | ok v =>
          rw [hc, runReadOp_ok env st (.ok v) m msg v hI hR hA rfl] at h
          exact absurd h (by simp)

/-- A contract method is invoked by a read operation only after the wallet
prompt succeeded in that same call and with a non-empty address, and the
wallet prompt is the first event of the call. -/
theorem runReadOp_contractCall_mem (m0 : String)
    (h : Event.contractCall m0 ∈ (runReadOp env st call m msg).2.2) :
    env.ethereumInstalled = true ∧ env.requestAccounts = .ok () ∧
      st.contractAddress ≠ "" ∧
      (runReadOp env st call m msg).2.2.head? = some .walletRequest := by
  cases hI : env.ethereumInstalled
  · rw [runReadOp_notInstalled env st call m msg hI] at h ⊢
    simp at h
  · cases hR : env.requestAccounts with
    | error e =>
      rw [runReadOp_reqErr env st call m msg e hI hR] at h ⊢
      simp at h
    | ok u =>
      cases u
      by_cases hA : st.contractAddress = ""
      · rw [runReadOp_noAddr env st call m msg hI hR hA] at h ⊢
        simp at h
      · cases hc : call with
        | error e =>
          rw [runReadOp_callErr env st (.error e) m msg e hI hR hA rfl]
          exact ⟨rfl, rfl, hA, rfl⟩
        | ok v =>
          rw [runReadOp_ok env st (.ok v) m msg v hI hR hA rfl]
          exact ⟨rfl, rfl, hA, rfl⟩

theorem runReadOp_noCall_of_reqErr (e : Err) (m0 : String)
    (hI : env.ethereumInstalled = true) (hR : env.requestAccounts = .error e) :
    Event.contractCall m0 ∉ (runReadOp env st call m msg).2.2 := by
  rw [runReadOp_reqErr env st call m msg e hI hR]
  simp

end RunReadOp

section RunWriteOp

variable (env : Env) (st : St) (call : Except Err Tx) (m msg : String)

theorem runWriteOp_notInstalled (h : env.ethereumInstalled = false) :
    runWriteOp env st call m msg = (.error metaMaskNotInstalledError, st, [.log msg]) := by
  simp [runWriteOp, getProviderAndSigner_notInstalled env h]

theorem runWriteOp_reqErr (e : Err) (hI : env.ethereumInstalled = true)
    (hR : env.requestAccounts = .error e) :
    runWriteOp env st call m msg = (.error e, st, [.walletRequest, .log msg]) := by
  simp [runWriteOp, getProviderAndSigner_reqErr env e hI hR]

theorem runWriteOp_noAddr (hI : env.ethereumInstalled = true)
    (hR : env.requestAccounts = .ok ()) (hA : st.contractAddress = "") :
    runWriteOp env st call m msg =
      (.error contractAddressNotSetError, st, [.walletRequest, .log msg]) := by
  simp [runWriteOp, getProviderAndSigner_ok env hI hR, getContract_noAddr st () hA]

theorem runWriteOp_callErr (e : Err) (hI : env.ethereumInstalled = true)
    (hR : env.requestAccounts = .ok ()) (hA : st.contractAddress ≠ "")
    (hc : call = .error e) :
    runWriteOp env st call m msg =
      (.error e, st, [.walletRequest, .contractCall m, .log msg]) := by
  simp [runWriteOp, getProviderAndSigner_ok env hI hR, getContract_ok st () hA, hc]

theorem runWriteOp_waitErr (tx : Tx) (e : Err) (hI : env.ethereumInstalled = true)
    (hR : env.requestAccounts = .ok ()) (hA : st.contractAddress ≠ "")
    (hc : call = .ok tx) (hw : env.txWaitResult tx = .error e) :
    runWriteOp env st call m msg =
      (.error e, st, [.walletRequest, .contractCall m, .txWait, .log msg]) := by
  simp [runWriteOp, getProviderAndSigner_ok env hI hR, getContract_ok st () hA, hc, hw]

theorem runWriteOp_ok (tx : Tx) (hI : env.ethereumInstalled = true)
    (hR : env.requestAccounts = .ok ()) (hA : st.contractAddress ≠ "")
    (hc : call = .ok tx) (hw : env.txWaitResult tx = .ok ()) :
    runWriteOp env st call m msg =
      (.ok tx, st, [.walletRequest, .contractCall m, .txWait]) := by
  simp [runWriteOp, getProviderAndSigner_ok env hI hR, getContract_ok st () hA, hc, hw]

/-- Every case of `runWriteOp` leaves the state unchanged. -/
theorem runWriteOp_state : (runWriteOp env st call m msg).2.1 = st := by
  cases hI : env.ethereumInstalled
  · rw [runWriteOp_notInstalled env st call m msg hI]
  · cases hR : env.requestAccounts with
    | error e => rw [runWriteOp_reqErr env st call m msg e hI hR]
    | ok u =>
      cases u
      by_cases hA : st.contractAddress = ""
      · rw [runWriteOp_noAddr env st call m msg hI hR hA]
      · cases hc : call with
        | error e => rw [runWriteOp_callErr env st (.error e) m msg e hI hR hA rfl]
        | ok tx =>
          cases hw : env.txWaitResult tx with
          | error e => rw [runWriteOp_waitErr env st (.ok tx) m msg tx e hI hR hA rfl hw]
          | ok u2 =>
            cases u2
            rw [runWriteOp_ok env st (.ok tx) m msg tx hI hR hA rfl hw]

/-- The possible origins of an error raised by a write operation: the
missing wallet extension, the rejected account request, the unset contract
address, the rejected transaction submission, or a failed
`tx.wait()` — each propagated as-is. -/
def writeFailureCause (env : Env) (st : St) (call : Except Err Tx) (e : Err) : Prop :=
  (env.ethereumInstalled = false ∧ e = metaMaskNotInstalledError) ∨
  (env.ethereumInstalled = true ∧ env.requestAccounts = .error e) ∨
  (env.ethereumInstalled = true ∧ env.requestAccounts = .ok () ∧
    st.contractAddress = "" ∧ e = contractAddressNotSetError) ∨
  (env.ethereumInstalled = true ∧ env.requestAccounts = .ok () ∧
    st.contractAddress ≠ "" ∧ call = .error e) ∨
  (∃ tx, env.ethereumInstalled = true ∧ env.requestAccounts = .ok () ∧
    st.contractAddress ≠ "" ∧ call = .ok tx ∧ env.txWaitResult tx = .error e)

theorem runWriteOp_error (e : Err)
    (h : (runWriteOp env st call m msg).1 = .error e) :
    writeFailureCause env st call e := by
  unfold writeFailureCause
  cases hI : env.ethereumInstalled
  · rw [runWriteOp_notInstalled env st call m msg hI] at h
    exact Or.inl ⟨rfl, ((Except.error.injEq _ _).mp h).symm⟩
  · cases hR : env.requestAccounts with
    | error e0 =>
      rw [runWriteOp_reqErr env st call m msg e0 hI hR] at h
      have he : e0 = e := (Except.error.injEq _ _).mp h
      exact Or.inr (Or.inl ⟨rfl, by rw [he]⟩)
    | ok u =>
      cases u
      by_cases hA : st.contractAddress = ""
      · rw [runWriteOp_noAddr env st call m msg hI hR hA] at h
        exact Or.inr (Or.inr (Or.inl ⟨rfl, rfl, hA, ((Except.error.injEq _ _).mp h).symm⟩))
      · cases hc : call with
        | error e0 =>
          rw [hc, runWriteOp_callErr env st (.error e0) m msg e0 hI hR hA rfl] at h
          have he : e0 = e := (Except.error.injEq _ _).mp h
          exact Or.inr (Or.inr (Or.inr (Or.inl ⟨rfl, rfl, hA, by rw [he]⟩)))
        | ok tx =>
          cases hw : env.txWaitResult tx with
          | error e0 =>
            rw [hc, runWriteOp_waitErr env st (.ok tx) m msg tx e0 hI hR hA rfl hw] at h
            have he : e0 = e := (Except.error.injEq _ _).mp h
            exact Or.inr (Or.inr (Or.inr (Or.inr ⟨tx, rfl, rfl, hA, rfl, by rw [← he, hw]⟩)))
          | ok u2 =>
            cases u2
            rw [hc, runWriteOp_ok env st (.ok tx) m msg tx hI hR hA rfl hw] at h
            exact absurd h (by simp)

/-- A contract method is invoked by a write operation only after the
wallet prompt succeeded in that same call and with a non-empty address,
and the wallet prompt is the first event of the call. -/
theorem runWriteOp_contractCall_mem (m0 : String)
    (h : Event.contractCall m0 ∈ (runWriteOp env st call m msg).2.2) :
    env.ethereumInstalled = true ∧ env.requestAccounts = .ok () ∧
      st.contractAddress ≠ "" ∧
      (runWriteOp env st call m msg).2.2.head? = some .walletRequest := by
  cases hI : env.ethereumInstalled
  · rw [runWriteOp_notInstalled env st call m msg hI] at h ⊢
    simp at h
  · cases hR : env.requestAccounts with
    | error e =>
      rw [runWriteOp_reqErr env st call m msg e hI hR] at h ⊢
      simp at h
    | ok u =>
      cases u
      by_cases hA : st.contractAddress = ""
      · rw [runWriteOp_noAddr env st call m msg hI hR hA] at h ⊢
        simp at h
      · cases hc : call with
        | error e =>
          rw [runWriteOp_callErr env st (.error e) m msg e hI hR hA rfl]
          exact ⟨rfl, rfl, hA, rfl⟩
        | ok tx =>
          cases hw : env.txWaitResult tx with
          | error e =>
            rw [runWriteOp_waitErr env st (.ok tx) m msg tx e hI hR hA rfl hw]
            exact ⟨rfl, rfl, hA, rfl⟩
          | ok u2 =>
            cases u2
            rw [runWriteOp_ok env st (.ok tx) m msg tx hI hR hA rfl hw]
            exact ⟨rfl, rfl, hA, rfl⟩

end RunWriteOp

/-! ### Helper lemmas -/

theorem mapWithIndexFrom_length {α β : Type} (f : Nat → α → β) (k : Nat) (l : List α) :
    (mapWithIndexFrom f k l).length = l.length := by
  induction l generalizing k with
  | nil => rfl
  | cons a as ih => simp [mapWithIndexFrom, ih]

theorem mapWithIndexFrom_get {α β : Type} (f : Nat → α → β) (k : Nat) (l : List α)
    (i : Nat) (h1 : i < (mapWithIndexFrom f k l).length) (h2 : i < l.length) :
    (mapWithIndexFrom f k l).get ⟨i, h1⟩ = f (k + i) (l.get ⟨i, h2⟩) := by
  induction l generalizing k i with
  | nil => exact absurd h2 (by simp)
  | cons a as ih =>
    cases i with
    | zero => simp [mapWithIndexFrom]
    | succ j =>
      have h1j : j < (mapWithIndexFrom f (k + 1) as).length := by
        have := h1
        simp only [mapWithIndexFrom, List.length_cons] at this
        omega
      have h2j : j < as.length := by
        have := h2
        simp only [List.length_cons] at this
        omega
      have hk : k + 1 + j = k + (j + 1) := by omega
      simp only [mapWithIndexFrom, List.get_cons_succ]
      rw [ih (k + 1) j h1j h2j, hk]

theorem mapWithIndexFrom_map {α β γ : Type} (f : Nat → β → γ) (g : α → β)
    (k : Nat) (l : List α) :
    mapWithIndexFrom f k (l.map g) = mapWithIndexFrom (fun i a => f i (g a)) k l := by
  induction l generalizing k with
  | nil => rfl
  | cons a as ih => simp [mapWithIndexFrom, ih]

/-- The element at position `i` of a `getMyRecords` result has `id = i`. -/
theorem mapWithIndex_toMyRecord_id (rs : List ChainRecord) (i : Nat)
    (hi : i < (mapWithIndex toMyRecord rs).length) :
    ((mapWithIndex toMyRecord rs).get ⟨i, hi⟩).id = i := by
  have h2 : i < rs.length := by
    rw [← mapWithIndexFrom_length toMyRecord 0 rs]
    exact hi
  simp only [mapWithIndex] at hi ⊢
  rw [mapWithIndexFrom_get toMyRecord 0 rs i hi h2]
  simp [toMyRecord]

/-- The element at position `i` of a `getAccessibleRecords` result has
`id = i`. -/
theorem mapWithIndex_toAccessibleRecord_id (rs : List ChainRecord) (i : Nat)
    (hi : i < (mapWithIndex toAccessibleRecord rs).length) :
    ((mapWithIndex toAccessibleRecord rs).get ⟨i, hi⟩).id = i := by
  have h2 : i < rs.length := by
    rw [← mapWithIndexFrom_length toAccessibleRecord 0 rs]
    exact hi
  simp only [mapWithIndex] at hi ⊢
  rw [mapWithIndexFrom_get toAccessibleRecord 0 rs i hi h2]
  simp [toAccessibleRecord]

theorem JsNum.toNumber_isNum (x : JsNum) : x.toNumber.isNum = true := by
  cases x <;> rfl

theorem map_eq_error_iff {α β : Type} (f : α → β) (ex : Except Err α) (e : Err) :
    ex.map f = .error e ↔ ex = .error e := by
  cases ex <;> simp [Except.map]

/-- An error cause established for a mapped remote result is a cause for
the raw remote result: `Except.map` preserves errors unchanged. -/
theorem readFailureCause_unmap {α β : Type} (env : Env) (st : St) (f : α → β)
    (ex : Except Err α) (e : Err) (h : readFailureCause env st (ex.map f) e) :
    readFailureCause env st ex e := by
  unfold readFailureCause at h ⊢
  rcases h with h | h | h | ⟨h1, h2, h3, h4⟩
  · exact Or.inl h
  · exact Or.inr (Or.inl h)
  · exact Or.inr (Or.inr (Or.inl h))
  · exact Or.inr (Or.inr (Or.inr ⟨h1, h2, h3, (map_eq_error_iff f ex e).mp h4⟩))

/-! ### Concrete data for witnesses and counterexamples -/

/-- A state with the address set and nothing persisted. -/
def st0 : St := { contractAddress := "0xABC", storage := none }

/-- A state with the global contract address unset. -/
def stUnset : St := { contractAddress := "", storage := none }

/-- The single record of the worked example in the specification. -/
def exampleRecord : ChainRecord :=
  { ipfsHash := "Qm123", owner := "0xOwner", timestamp := .num 1000
    recordType := "xray", size := .num 2048 }

/-- A record whose numeric fields arrive as wide integers. -/
def wideRecord : ChainRecord :=
  { ipfsHash := "QmWide", owner := "0xOwner2", timestamp := .bigNum 1700000000
    recordType := "mri", size := .bigNum 4096 }

/-- An environment in which every external interaction succeeds. -/
def okEnv : Env :=
  { ethereumInstalled := true
    requestAccounts := .ok ()
    addRecordTx := fun _ _ _ => .ok 1
    grantAccessTx := fun _ _ => .ok 2
    revokeAccessTx := fun _ _ => .ok 3
    txWaitResult := fun _ => .ok ()
    hasAccessResult := fun _ _ => .ok true
    getRecordResult := fun _ => .ok wideRecord
    getMyRecordsResult := .ok [exampleRecord]
    getAccessibleRecordsResult := .ok [exampleRecord] }

/-- An environment in which the user rejects the wallet prompt
(MetaMask rejection, error code 4001). -/
def rejectEnv : Env := { okEnv with requestAccounts := .error (.remote 4001) }

/-- An environment in which the `addRecord` transaction is rejected by the
contract. -/
def failEnv : Env := { okEnv with addRecordTx := fun _ _ _ => .error (.remote 7) }

/-! ### Result predicates used by the claim theorems -/

/-- The call settled with the configuration error, invoked no contract
method, but did issue the wallet account request. -/
def failsUnsetAfterPrompt {α : Type} (r : Except Err α × St × List Event) : Prop :=
  r.1 = .error contractAddressNotSetError ∧
  (∀ m0, Event.contractCall m0 ∉ r.2.2) ∧
  Event.walletRequest ∈ r.2.2

/-- The call rejected with the error `e` and invoked no contract method. -/
def rejectsNoCall {α : Type} (r : Except Err α × St × List Event) (e : Err) : Prop :=
  r.1 = .error e ∧ ∀ m0, Event.contractCall m0 ∉ r.2.2

theorem runReadOp_unset {α : Type} (env : Env) (st : St) (call : Except Err α)
    (m msg : String) (hI : env.ethereumInstalled = true)
    (hR : env.requestAccounts = .ok ()) (hA : st.contractAddress = "") :
    failsUnsetAfterPrompt (runReadOp env st call m msg) := by
  unfold failsUnsetAfterPrompt
  rw [runReadOp_noAddr env st call m msg hI hR hA]
  refine ⟨rfl, ?_, by simp⟩
  intro m0
  simp

theorem runWriteOp_unset (env : Env) (st : St) (call : Except Err Tx)
    (m msg : String) (hI : env.ethereumInstalled = true)
    (hR : env.requestAccounts = .ok ()) (hA : st.contractAddress = "") :
    failsUnsetAfterPrompt (runWriteOp env st call m msg) := by
  unfold failsUnsetAfterPrompt
  rw [runWriteOp_noAddr env st call m msg hI hR hA]
  refine ⟨rfl, ?_, by simp⟩
  intro m0
  simp

theorem runReadOp_rejects {α : Type} (env : Env) (st : St) (call : Except Err α)
    (m msg : String) (e : Err) (hI : env.ethereumInstalled = true)
    (hR : env.requestAccounts = .error e) :
    rejectsNoCall (runReadOp env st call m msg) e := by
  unfold rejectsNoCall
  rw [runReadOp_reqErr env st call m msg e hI hR]
  refine ⟨rfl, ?_⟩
  intro m0
  simp

theorem runWriteOp_rejects (env : Env) (st : St) (call : Except Err Tx)
    (m msg : String) (e : Err) (hI : env.ethereumInstalled = true)
    (hR : env.requestAccounts = .error e) :
    rejectsNoCall (runWriteOp env st call m msg) e := by
  unfold rejectsNoCall
  rw [runWriteOp_reqErr env st call m msg e hI hR]
  refine ⟨rfl, ?_⟩
  intro m0
  simp

/-! ### Claim theorems -/

/-- Claim C1, counterexample: with the address unset but the wallet
present and consenting, `addRecord` does fail with the configuration
error, yet the wallet account request has already been issued when it
fails — the operation is not free of network interaction, contrary to the
claim. -/
theorem C1_counterexample :
    (addRecord okEnv stUnset "Qm123" "xray" (.num 2048)).1 =
      .error contractAddressNotSetError ∧
    Event.walletRequest ∈ (addRecord okEnv stUnset "Qm123" "xray" (.num 2048)).2.2 := by
  have h : addRecord okEnv stUnset "Qm123" "xray" (.num 2048) =
      (.error contractAddressNotSetError, stUnset,
        [.walletRequest, .log "Error adding record to blockchain:"]) :=
    runWriteOp_noAddr okEnv stUnset _ "addRecord"
      "Error adding record to blockchain:" rfl rfl rfl
  rw [h]
  exact ⟨rfl, by simp⟩

/-- Claim C1 (amended): if the global contract address is unset while the
wallet extension is present and the account request succeeds, every record
operation fails with the configuration error and invokes no contract
method; however, the wallet account request is issued before the
failure, because each operation connects before checking the address. -/
theorem C1_unset_address_fails_after_prompt (env : Env) (st : St)
    (ih rt : String) (fs : JsNum) (rid : Nat) (da adr : String)
    (hI : env.ethereumInstalled = true) (hR : env.requestAccounts = .ok ())
    (hA : st.contractAddress = "") :
    failsUnsetAfterPrompt (addRecord env st ih rt fs) ∧
    failsUnsetAfterPrompt (grantAccess env st rid da) ∧
    failsUnsetAfterPrompt (revokeAccess env st rid da) ∧
    failsUnsetAfterPrompt (hasAccess env st rid adr) ∧
    failsUnsetAfterPrompt (getRecord env st rid) ∧
    failsUnsetAfterPrompt (getMyRecords env st) ∧
    failsUnsetAfterPrompt (getAccessibleRecords env st) :=
  ⟨runWriteOp_unset env st _ _ _ hI hR hA,
   runWriteOp_unset env st _ _ _ hI hR hA,
   runWriteOp_unset env st _ _ _ hI hR hA,
   runReadOp_unset env st _ _ _ hI hR hA,
   runReadOp_unset env st _ _ _ hI hR hA,
   runReadOp_unset env st _ _ _ hI hR hA,
   runReadOp_unset env st _ _ _ hI hR hA⟩

/-- Claim C1, witness: the amended statement at a concrete failing
configuration. -/
theorem C1_witness :
    failsUnsetAfterPrompt (addRecord okEnv stUnset "Qm123" "xray" (.num 2048)) ∧
    failsUnsetAfterPrompt (getMyRecords okEnv stUnset) := by
  have h := C1_unset_address_fails_after_prompt okEnv stUnset "Qm123" "xray"
    (.num 2048) 0 "0xDoc" "0xAdr" rfl rfl rfl
  exact ⟨h.1, h.2.2.2.2.2.1⟩

/-- Claim C2: when the wallet account request rejects with an error, every
dependent operation rejects with that same error and no contract method is
invoked in that call. -/
theorem C2_wallet_rejection_propagates (env : Env) (st : St) (e : Err)
    (ih rt : String) (fs : JsNum) (rid : Nat) (da adr : String)
    (hI : env.ethereumInstalled = true) (hR : env.requestAccounts = .error e) :
    rejectsNoCall (addRecord env st ih rt fs) e ∧
    rejectsNoCall (grantAccess env st rid da) e ∧
    rejectsNoCall (revokeAccess env st rid da) e ∧
    rejectsNoCall (hasAccess env st rid adr) e ∧
    rejectsNoCall (getRecord env st rid) e ∧
    rejectsNoCall (getMyRecords env st) e ∧
    rejectsNoCall (getAccessibleRecords env st) e :=
  ⟨runWriteOp_rejects env st _ _ _ e hI hR,
   runWriteOp_rejects env st _ _ _ e hI hR,
   runWriteOp_rejects env st _ _ _ e hI hR,
   runReadOp_rejects env st _ _ _ e hI hR,
   runReadOp_rejects env st _ _ _ e hI hR,
   runReadOp_rejects env st _ _ _ e hI hR,
   runReadOp_rejects env st _ _ _ e hI hR⟩

/-- Claim C2, witness: a concrete rejected prompt (MetaMask code 4001)
propagated by `addRecord`. -/
theorem C2_witness :
    rejectsNoCall (addRecord rejectEnv st0 "Qm123" "xray" (.num 2048)) (.remote 4001) ∧
    rejectsNoCall (getMyRecords rejectEnv st0) (.remote 4001) := by
  have h := C2_wallet_rejection_propagates rejectEnv st0 (.remote 4001)
    "Qm123" "xray" (.num 2048) 0 "0xDoc" "0xAdr" rfl rfl
  exact ⟨h.1, h.2.2.2.2.2.1⟩

/-- Claim C3: every operation leaves the global state unchanged, and every
error it settles with is exactly one of the underlying failure causes of
that call — the missing extension, the rejected prompt, the unset address,
or that operation's own remote call — never wrapped or replaced. -/
theorem C3_errors_propagate_state_unchanged (env : Env) (st : St)
    (ih rt : String) (fs : JsNum) (rid : Nat) (da adr : String) :
    ((addRecord env st ih rt fs).2.1 = st ∧
     (grantAccess env st rid da).2.1 = st ∧
     (revokeAccess env st rid da).2.1 = st ∧
     (hasAccess env st rid adr).2.1 = st ∧
     (getRecord env st rid).2.1 = st ∧
     (getMyRecords env st).2.1 = st ∧
     (getAccessibleRecords env st).2.1 = st) ∧
    ((∀ e, (addRecord env st ih rt fs).1 = .error e →
        writeFailureCause env st (env.addRecordTx ih rt fs) e) ∧
     (∀ e, (grantAccess env st rid da).1 = .error e →
        writeFailureCause env st (env.grantAccessTx rid da) e) ∧
     (∀ e, (revokeAccess env st rid da).1 = .error e →
        writeFailureCause env st (env.revokeAccessTx rid da) e) ∧
     (∀ e, (hasAccess env st rid adr).1 = .error e →
        readFailureCause env st (env.hasAccessResult rid adr) e) ∧
     (∀ e, (getRecord env st rid).1 = .error e →
        readFailureCause env st (env.getRecordResult rid) e) ∧
     (∀ e, (getMyRecords env st).1 = .error e →
        readFailureCause env st env.getMyRecordsResult e) ∧
     (∀ e, (getAccessibleRecords env st).1 = .error e →
        readFailureCause env st env.getAccessibleRecordsResult e)) := by
  refine ⟨⟨?_, ?_, ?_, ?_, ?_, ?_, ?_⟩, ?_, ?_, ?_, ?_, ?_, ?_, ?_⟩
  · exact runWriteOp_state env st _ _ _
  · exact runWriteOp_state env st _ _ _
  · exact runWriteOp_state env st _ _ _
  · exact runReadOp_state env st _ _ _
  · exact runReadOp_state env st _ _ _
  · exact runReadOp_state env st _ _ _
  · exact runReadOp_state env st _ _ _
  · exact fun e h => runWriteOp_error env st _ _ _ e h
  · exact fun e h => runWriteOp_error env st _ _ _ e h
  · exact fun e h => runWriteOp_error env st _ _ _ e h
  · exact fun e h => runReadOp_error env st _ _ _ e h
  · exact fun e h =>
      readFailureCause_unmap env st toRecordOut _ e (runReadOp_error env st _ _ _ e h)
  · exact fun e h =>
      readFailureCause_unmap env st (mapWithIndex toMyRecord) _ e
        (runReadOp_error env st _ _ _ e h)
  · exact fun e h =>
      readFailureCause_unmap env st (mapWithIndex toAccessibleRecord) _ e
        (runReadOp_error env st _ _ _ e h)

/-- Claim C3, witness: a concrete reverted `addRecord` transaction leaves
the state unchanged and surfaces its own error. -/
theorem C3_witness :
    (addRecord failEnv st0 "Qm123" "xray" (.num 2048)).2.1 = st0 ∧
    writeFailureCause failEnv st0 (failEnv.addRecordTx "Qm123" "xray" (.num 2048))
      (.remote 7) := by
  have h := C3_errors_propagate_state_unchanged failEnv st0 "Qm123" "xray"
    (.num 2048) 0 "0xDoc" "0xAdr"
  exact ⟨h.1.1, h.2.1 (.remote 7) rfl⟩

/-- Claim C4, counterexample: persisting the empty address and restoring
in a fresh session whose environment default is `0xDEF` leaves `0xDEF` in
place — the round trip does not return the empty string that was set,
because `if (savedAddress)` treats the persisted empty string as falsy. -/
theorem C4_counterexample :
    (initContractAddress true
        (freshSession (some "0xDEF")
          (setContractAddress true st0 "").storage)).contractAddress ≠ "" := by
  decide

/-- Claim C4 (amended): for every non-empty address string `a`, with
`window` defined in both sessions, `setContractAddress a` followed in a
fresh session by `initContractAddress` restores the global address
to `a`, whatever the environment default of the fresh session. -/
theorem C4_roundtrip_nonempty (a : String) (envVar : Option String) (st : St)
    (ha : a ≠ "") :
    (initContractAddress true
        (freshSession envVar (setContractAddress true st a).storage)).contractAddress
      = a := by
  have hs : (setContractAddress true st a).storage = some a := rfl
  rw [hs]
  simp [freshSession, initContractAddress, ha]

/-- Claim C4, witness: the round trip at the concrete address `0xABC`. -/
theorem C4_witness :
    (initContractAddress true
        (freshSession (some "0xDEF")
          (setContractAddress true stUnset "0xABC").storage)).contractAddress
      = "0xABC" :=
  C4_roundtrip_nonempty "0xABC" (some "0xDEF") stUnset (by decide)

/-- Claim C5: with a working wallet and the address set, `getMyRecords`
and `getAccessibleRecords` return one output element per contract record,
and the element at position `i` carries `id = i`, whatever the records
hold. -/
theorem C5_ids_equal_position (env : Env) (st : St) (rs rs2 : List ChainRecord)
    (hI : env.ethereumInstalled = true) (hR : env.requestAccounts = .ok ())
    (hA : st.contractAddress ≠ "")
    (h1 : env.getMyRecordsResult = .ok rs)
    (h2 : env.getAccessibleRecordsResult = .ok rs2) :
    ((getMyRecords env st).1 = .ok (mapWithIndex toMyRecord rs) ∧
     (mapWithIndex toMyRecord rs).length = rs.length ∧
     ∀ i (hi : i < (mapWithIndex toMyRecord rs).length),
       ((mapWithIndex toMyRecord rs).get ⟨i, hi⟩).id = i) ∧
    ((getAccessibleRecords env st).1 = .ok (mapWithIndex toAccessibleRecord rs2) ∧
     (mapWithIndex toAccessibleRecord rs2).length = rs2.length ∧
     ∀ i (hi : i < (mapWithIndex toAccessibleRecord rs2).length),
       ((mapWithIndex toAccessibleRecord rs2).get ⟨i, hi⟩).id = i) := by
  constructor
  · refine ⟨?_, mapWithIndexFrom_length toMyRecord 0 rs, mapWithIndex_toMyRecord_id rs⟩
    have hc : env.getMyRecordsResult.map (mapWithIndex toMyRecord) =
        .ok (mapWithIndex toMyRecord rs) := by
      rw [h1]
      rfl
    have h := runReadOp_ok env st _ "getMyRecords" "Error getting my records:"
      (mapWithIndex toMyRecord rs) hI hR hA hc
    rw [show getMyRecords env st = _ from h]
  · refine ⟨?_, mapWithIndexFrom_length toAccessibleRecord 0 rs2,
      mapWithIndex_toAccessibleRecord_id rs2⟩
    have hc : env.getAccessibleRecordsResult.map (mapWithIndex toAccessibleRecord) =
        .ok (mapWithIndex toAccessibleRecord rs2) := by
      rw [h2]
      rfl
    have h := runReadOp_ok env st _ "getAccessibleRecords"
      "Error getting accessible records:" (mapWithIndex toAccessibleRecord rs2) hI hR hA hc
    rw [show getAccessibleRecords env st = _ from h]

/-- Claim C5, witness: the worked example of the specification —
`setContractAddress "0xABC"` then `getMyRecords` with a contract returning
the single example record yields the record with `id = 0`. -/
theorem C5_witness :
    (getMyRecords okEnv (setContractAddress true stUnset "0xABC")).1 =
      .ok [{ id := 0, ipfsHash := "Qm123", timestamp := .num 1000,
             recordType := "xray", size := .num 2048 }] := by
  have h := (C5_ids_equal_position okEnv (setContractAddress true stUnset "0xABC")
    [exampleRecord] [exampleRecord] rfl rfl (by decide) rfl rfl).1.1
  rw [h]
  rfl

/-- Claim C6: `getRecord` returns `timestamp` and `size` through the
`Number` coercion — always plain numbers, even when the contract yields a
wide integer type — while `ipfsHash`, `owner` and `recordType` pass
through unchanged. -/
theorem C6_getRecord_number_coercion (env : Env) (st : St) (rid : Nat)
    (r : ChainRecord) (hI : env.ethereumInstalled = true)
    (hR : env.requestAccounts = .ok ()) (hA : st.contractAddress ≠ "")
    (h1 : env.getRecordResult rid = .ok r) :
    (getRecord env st rid).1 = .ok (toRecordOut r) ∧
    (toRecordOut r).ipfsHash = r.ipfsHash ∧
    (toRecordOut r).owner = r.owner ∧
    (toRecordOut r).recordType = r.recordType ∧
    (toRecordOut r).timestamp = r.timestamp.toNumber ∧
    (toRecordOut r).size = r.size.toNumber ∧
    (toRecordOut r).timestamp.isNum = true ∧
    (toRecordOut r).size.isNum = true := by
  refine ⟨?_, rfl, rfl, rfl, rfl, rfl,
    JsNum.toNumber_isNum r.timestamp, JsNum.toNumber_isNum r.size⟩
  have hc : (env.getRecordResult rid).map toRecordOut = .ok (toRecordOut r) := by
    rw [h1]
    rfl
  have h := runReadOp_ok env st _ "getRecord" "Error getting record:"
    (toRecordOut r) hI hR hA hc
  rw [show getRecord env st rid = _ from h]

/-- Claim C6, witness: a record whose numeric fields arrive as wide
integers comes back with plain numbers of the same value. -/
theorem C6_witness :
    (getRecord okEnv st0 5).1 =
      .ok { ipfsHash := "QmWide", owner := "0xOwner2", timestamp := .num 1700000000,
            recordType := "mri", size := .num 4096 } ∧
    (toRecordOut wideRecord).timestamp.isNum = true := by
  have h := C6_getRecord_number_coercion okEnv st0 5 wideRecord rfl rfl (by decide) rfl
  exact ⟨by rw [h.1]; rfl, h.2.2.2.2.2.2.1⟩

/-- Claim C7: a contract method is invoked only when the global address is
non-empty and the signer was successfully obtained in that same call, and
the wallet connection is re-acquired on every call — the account request
is the first event of any call that reaches the contract. -/
theorem C7_no_call_without_address_and_signer (env : Env) (st : St)
    (ih rt : String) (fs : JsNum) (rid : Nat) (da adr : String) :
    (∀ m0, Event.contractCall m0 ∈ (addRecord env st ih rt fs).2.2 →
       env.ethereumInstalled = true ∧ env.requestAccounts = .ok () ∧
       st.contractAddress ≠ "" ∧
       (addRecord env st ih rt fs).2.2.head? = some .walletRequest) ∧
    (∀ m0, Event.contractCall m0 ∈ (grantAccess env st rid da).2.2 →
       env.ethereumInstalled = true ∧ env.requestAccounts = .ok () ∧
       st.contractAddress ≠ "" ∧
       (grantAccess env st rid da).2.2.head? = some .walletRequest) ∧
    (∀ m0, Event.contractCall m0 ∈ (revokeAccess env st rid da).2.2 →
       env.ethereumInstalled = true ∧ env.requestAccounts = .ok () ∧
       st.contractAddress ≠ "" ∧
       (revokeAccess env st rid da).2.2.head? = some .walletRequest) ∧
    (∀ m0, Event.contractCall m0 ∈ (hasAccess env st rid adr).2.2 →
       env.ethereumInstalled = true ∧ env.requestAccounts = .ok () ∧
       st.contractAddress ≠ "" ∧
       (hasAccess env st rid adr).2.2.head? = some .walletRequest) ∧
    (∀ m0, Event.contractCall m0 ∈ (getRecord env st rid).2.2 →
       env.ethereumInstalled = true ∧ env.requestAccounts = .ok () ∧
       st.contractAddress ≠ "" ∧
       (getRecord env st rid).2.2.head? = some .walletRequest) ∧
    (∀ m0, Event.contractCall m0 ∈ (getMyRecords env st).2.2 →
       env.ethereumInstalled = true ∧ env.requestAccounts = .ok () ∧
       st.contractAddress ≠ "" ∧
       (getMyRecords env st).2.2.head? = some .walletRequest) ∧
    (∀ m0, Event.contractCall m0 ∈ (getAccessibleRecords env st).2.2 →
       env.ethereumInstalled = true ∧ env.requestAccounts = .ok () ∧
       st.contractAddress ≠ "" ∧
       (getAccessibleRecords env st).2.2.head? = some .walletRequest) :=
  ⟨fun m0 h => runWriteOp_contractCall_mem env st _ _ _ m0 h,
   fun m0 h => runWriteOp_contractCall_mem env st _ _ _ m0 h,
   fun m0 h => runWriteOp_contractCall_mem env st _ _ _ m0 h,
   fun m0 h => runReadOp_contractCall_mem env st _ _ _ m0 h,
   fun m0 h => runReadOp_contractCall_mem env st _ _ _ m0 h,
   fun m0 h => runReadOp_contractCall_mem env st _ _ _ m0 h,
   fun m0 h => runReadOp_contractCall_mem env st _ _ _ m0 h⟩

/-- Claim C7, witness: a concrete successful `addRecord` call invokes the
contract, so the invariant conclusions hold for it. -/
theorem C7_witness :
    okEnv.ethereumInstalled = true ∧ okEnv.requestAccounts = .ok () ∧
    st0.contractAddress ≠ "" ∧
    (addRecord okEnv st0 "Qm123" "xray" (.num 2048)).2.2.head? =
      some .walletRequest :=
  (C7_no_call_without_address_and_signer okEnv st0 "Qm123" "xray" (.num 2048)
    0 "0xDoc" "0xAdr").1 "addRecord" (by decide)

/-- Claim C8: at module load the global address is the environment value
(empty string when the variable is missing or empty), and
`initContractAddress` overwrites it only when a persisted value exists —
with nothing persisted the address is left unchanged. -/
theorem C8_startup_default_and_init (s : String) (wd : Bool) (st : St) :
    (initialContractAddress none = "" ∧ initialContractAddress (some s) = s) ∧
    (st.storage = none → initContractAddress wd st = st) ∧
    ((initContractAddress wd st).contractAddress ≠ st.contractAddress →
      ∃ sv, st.storage = some sv ∧
        (initContractAddress wd st).contractAddress = sv) := by
  refine ⟨⟨rfl, ?_⟩, ?_, ?_⟩
  · by_cases hs : s = "" <;> simp [initialContractAddress, hs]
  · intro h
    cases wd <;> simp [initContractAddress, h]
  · intro h
    cases wd with
    | false => simp [initContractAddress] at h
    | true =>
      cases hs : st.storage with
      | none => simp [initContractAddress, hs] at h
      | some sv =>
        by_cases hsv : sv = ""
        · simp [initContractAddress, hs, hsv] at h
        · exact ⟨sv, rfl, by simp [initContractAddress, hs, hsv]⟩

/-- Claim C8, witness: with nothing persisted the address stays at its
default; with a persisted non-empty value the restore takes it. -/
theorem C8_witness :
    initContractAddress true { contractAddress := "0xD", storage := none } =
      { contractAddress := "0xD", storage := none } ∧
    ∃ sv, ({ contractAddress := "", storage := some "0xNEW" } : St).storage = some sv ∧
      (initContractAddress true
        { contractAddress := "", storage := some "0xNEW" }).contractAddress = sv :=
  ⟨(C8_startup_default_and_init "x" true
      { contractAddress := "0xD", storage := none }).2.1 rfl,
   (C8_startup_default_and_init "x" true
      { contractAddress := "", storage := some "0xNEW" }).2.2 (by decide)⟩

/-- Claim C9: when the wallet and contract calls succeed, `hasAccess`
returns exactly the boolean produced by the contract method; the local
binding that shadows the exported name does not alter the result. -/
theorem C9_hasAccess_returns_contract_boolean (env : Env) (st : St)
    (rid : Nat) (adr : String) (b : Bool)
    (hI : env.ethereumInstalled = true) (hR : env.requestAccounts = .ok ())
    (hA : st.contractAddress ≠ "") (hb : env.hasAccessResult rid adr = .ok b) :
    (hasAccess env st rid adr).1 = .ok b := by
  have h := runReadOp_ok env st (env.hasAccessResult rid adr) "hasAccess"
    "Error checking access:" b hI hR hA hb
  rw [show hasAccess env st rid adr = _ from h]

/-- Claim C9, witness: the contract boolean `true` is returned
unchanged. -/
theorem C9_witness : (hasAccess okEnv st0 3 "0xDoc").1 = .ok true :=
  C9_hasAccess_returns_contract_boolean okEnv st0 3 "0xDoc" true rfl rfl
    (by decide) rfl

/-- Claim C10: `getMyRecords` elements carry exactly the fields `id`,
`ipfsHash`, `timestamp`, `recordType`, `size` — the owner is dropped, so
the output does not depend on the records' owners — whereas
`getAccessibleRecords` elements additionally carry `owner`, copied from
the corresponding record. -/
theorem C10_bulk_listing_shapes (env : Env) (st : St)
    (rs rs2 : List ChainRecord) (o : String)
    (hI : env.ethereumInstalled = true) (hR : env.requestAccounts = .ok ())
    (hA : st.contractAddress ≠ "")
    (h1 : env.getMyRecordsResult = .ok rs)
    (h2 : env.getAccessibleRecordsResult = .ok rs2) :
    ("owner" ∉ myRecordFields ∧ "owner" ∈ accessibleRecordFields ∧
      accessibleRecordFields.erase "owner" = myRecordFields) ∧
    ((getMyRecords env st).1 = .ok (mapWithIndex toMyRecord rs) ∧
     (getMyRecords { env with getMyRecordsResult := Except.ok (rs.map (fun r => { r with owner := o })) } st).1 =
       (getMyRecords env st).1) ∧
    ((getAccessibleRecords env st).1 = .ok (mapWithIndex toAccessibleRecord rs2) ∧
     ∀ i (hi : i < (mapWithIndex toAccessibleRecord rs2).length) (hj : i < rs2.length),
       ((mapWithIndex toAccessibleRecord rs2).get ⟨i, hi⟩).owner =
         (rs2.get ⟨i, hj⟩).owner) := by
  have hcMy : env.getMyRecordsResult.map (mapWithIndex toMyRecord) =
      .ok (mapWithIndex toMyRecord rs) := by
    rw [h1]
    rfl
  have hMy := runReadOp_ok env st _ "getMyRecords" "Error getting my records:"
    (mapWithIndex toMyRecord rs) hI hR hA hcMy
  have hmod : mapWithIndex toMyRecord (rs.map (fun r => { r with owner := o })) =
      mapWithIndex toMyRecord rs := by
    simp only [mapWithIndex]
    rw [mapWithIndexFrom_map]
    rfl
  have hcMod : ({ env with getMyRecordsResult := Except.ok (rs.map (fun r => { r with owner := o })) } : Env).getMyRecordsResult.map
        (mapWithIndex toMyRecord) = .ok (mapWithIndex toMyRecord rs) := by
    show Except.ok (mapWithIndex toMyRecord (rs.map (fun r => { r with owner := o }))) =
      Except.ok (mapWithIndex toMyRecord rs)
    rw [hmod]
  have hMod := runReadOp_ok
    ({ env with getMyRecordsResult := Except.ok (rs.map (fun r => { r with owner := o })) }) st
    _ "getMyRecords" "Error getting my records:"
    (mapWithIndex toMyRecord rs) hI hR hA hcMod
  have hcAcc : env.getAccessibleRecordsResult.map (mapWithIndex toAccessibleRecord) =
      .ok (mapWithIndex toAccessibleRecord rs2) := by
    rw [h2]
    rfl
  have hAcc := runReadOp_ok env st _ "getAccessibleRecords"
    "Error getting accessible records:" (mapWithIndex toAccessibleRecord rs2) hI hR hA hcAcc
  refine ⟨⟨by decide, by decide, by decide⟩, ⟨?_, ?_⟩, ⟨?_, ?_⟩⟩
  · rw [show getMyRecords env st = _ from hMy]
  · rw [show getMyRecords { env with getMyRecordsResult := Except.ok (rs.map (fun r => { r with owner := o })) } st = _ from hMod,
      show getMyRecords env st = _ from hMy]
  · rw [show getAccessibleRecords env st = _ from hAcc]
  · intro i hi hj
    simp only [mapWithIndex] at hi ⊢
    rw [mapWithIndexFrom_get toAccessibleRecord 0 rs2 i hi hj]
    simp [toAccessibleRecord]

/-- Claim C10, witness: the shape facts and the concrete listings at the
example record. -/
theorem C10_witness :
    ("owner" ∉ myRecordFields ∧ "owner" ∈ accessibleRecordFields ∧
      accessibleRecordFields.erase "owner" = myRecordFields) ∧
    (getMyRecords okEnv st0).1 = .ok (mapWithIndex toMyRecord [exampleRecord]) ∧
    (getAccessibleRecords okEnv st0).1 =
      .ok (mapWithIndex toAccessibleRecord [exampleRecord]) := by
  have h := C10_bulk_listing_shapes okEnv st0 [exampleRecord] [exampleRecord]
    "0xOther" rfl rfl (by decide) rfl rfl
  exact ⟨h.1, h.2.1.1, h.2.2.1⟩

end MediTrust
